import Mathlib

/-!
Shallow embedding of the relay-client and profile-cache subsystem of the
similar-teia-weave repository (src/lib/nostr.ts, src/hooks/useNostrService.ts,
and the profile-cache module), together with proofs about the properties the
specification states for it.

Conventions used throughout:
* JavaScript numbers that the code only compares or defaults are modelled as
  Nat; float values produced by parseFloat are modelled as Option Rat, with
  none standing for NaN.
* Fields a JavaScript object may lack (event.id, event.created_at, ...) are
  Option-typed; an absent field is none.
* Single-threaded event-loop execution is modelled by explicit state passing:
  a handler's effect is a function on the state, and an asynchronous run is a
  fold of handler effects over the time-ordered list of occurrences.
-/

/-- Raw relay event as declared in src/lib/nostr.ts (interface NostrEvent).
The sig field is never read by the code under verification and is omitted. -/
structure NostrEvent where
  id : Option String
  pubkey : String
  created_at : Option Nat
  kind : Nat
  tags : List (List String)
  content : String
deriving DecidableEq

/-- Book record as built by parseEventToSimilarity (interface Book; the
optional cover fields are never set by the parser and are omitted). -/
structure Book where
  isbn : String
  title : String
  author : String
deriving DecidableEq

/-- Typed similarity record (interface SimilarityEvent). The similarity field
is Option Rat: some q is a parsed float value, none is NaN. -/
structure SimilarityEvent where
  id : String
  pubkey : String
  createdAt : Nat
  content : String
  book1 : Book
  book2 : Book
  similarity : Option Rat
deriving DecidableEq

/-- Longest run of leading decimal digits of a character list, returned with
the rest of the list (the scanning core of JavaScript parseFloat). -/
def parseDigits : List Char → List Char × List Char
  | [] => ([], [])
  | c :: cs =>
    if c.isDigit then
      let r := parseDigits cs
      (c :: r.1, r.2)
    else ([], c :: cs)

/-- Numeric value of a list of decimal digits. -/
def digitsVal (l : List Char) : Nat :=
  l.foldl (fun acc c => acc * 10 + (c.toNat - '0'.toNat)) 0

/-- Whitespace characters skipped by JavaScript parseFloat. -/
def isSpaceChar (c : Char) : Bool :=
  c == ' ' || c == '\t' || c == '\n' || c == '\r'

/-- JavaScript parseFloat: skip leading whitespace, optional sign, digits,
optional fraction, optional exponent; none models NaN (no digits parsed).
The special literal Infinity is not modelled: the code under verification
never feeds it to parseFloat. -/
def jsParseFloat (s : String) : Option Rat :=
  let cs := s.data.dropWhile isSpaceChar
  let signVal : Rat :=
    match cs with
    | '-' :: _ => -1
    | _ => 1
  let cs1 :=
    match cs with
    | '-' :: rest => rest
    | '+' :: rest => rest
    | _ => cs
  let p1 := parseDigits cs1
  let p2 :=
    match p1.2 with
    | '.' :: rest => parseDigits rest
    | other => ([], other)
  if p1.1.isEmpty && p2.1.isEmpty then none
  else
    let mantissa : Rat :=
      (digitsVal p1.1 : Rat) + (digitsVal p2.1 : Rat) / ((10 : Rat) ^ p2.1.length)
    let expVal : Int :=
      match p2.2 with
      | c :: rest =>
        if c == 'e' || c == 'E' then
          match rest with
          | '-' :: r2 => if (parseDigits r2).1.isEmpty then 0 else -(digitsVal (parseDigits r2).1 : Int)
          | '+' :: r2 => if (parseDigits r2).1.isEmpty then 0 else (digitsVal (parseDigits r2).1 : Int)
          | r2 => if (parseDigits r2).1.isEmpty then 0 else (digitsVal (parseDigits r2).1 : Int)
        else 0
      | [] => 0
    some (signVal * mantissa * (10 : Rat) ^ expVal)

/-- Leading-match test on character lists: leads p l holds when p is an
initial segment of l. -/
def leads : List Char → List Char → Bool
  | [], _ => true
  | _ :: _, [] => false
  | p :: ps, c :: cs => p == c && leads ps cs

/-- First-occurrence replacement on character lists, as JavaScript
String.replace with a string pattern does (only the first match is replaced). -/
def listReplaceFirst (pat repl : List Char) : List Char → List Char
  | [] => []
  | c :: cs =>
    if leads pat (c :: cs) then repl ++ (c :: cs).drop pat.length
    else c :: listReplaceFirst pat repl cs

/-- JavaScript s.replace(pat, repl) for a string pattern. -/
def jsReplaceFirst (s pat repl : String) : String :=
  String.mk (listReplaceFirst pat.data repl.data s.data)

/-- parseEventToSimilarity from src/lib/nostr.ts (identical in the drafts in
the unnamed sources). Tag indexing tag[0], tag[1] is List.get?; comparing an
absent index with a string is false, and calling .replace on an absent
items[n][1] throws, which the surrounding try/catch turns into null (the
final match arm). -/
def parseEventToSimilarity (event : NostrEvent) : Option SimilarityEvent :=
  let items := event.tags.filter (fun tag => tag.get? 0 == some "i")
  let kinds := event.tags.filter (fun tag => tag.get? 0 == some "kind")
  let similarityTag := event.tags.find? (fun tag => tag.get? 0 == some "similarity")
  match similarityTag with
  | none => none
  | some st =>
    if items.length != 2 || kinds.length != 2 then none
    else if !(kinds.all fun tag => tag.get? 1 == some "isbn") then none
    else
      match (items.get? 0).bind (fun t => t.get? 1), (items.get? 1).bind (fun t => t.get? 1) with
      | some raw1, some raw2 =>
        let isbn1 := jsReplaceFirst raw1 "isbn:" ""
        let isbn2 := jsReplaceFirst raw2 "isbn:" ""
        some
          { id := event.id.getD ""
            pubkey := event.pubkey
            createdAt := event.created_at.getD 0
            content := event.content
            book1 := { isbn := isbn1, title := "Book " ++ isbn1, author := "Unknown Author" }
            book2 := { isbn := isbn2, title := "Book " ++ isbn2, author := "Unknown Author" }
            similarity := (st.get? 1).bind jsParseFloat }
      | _, _ => none

/-- JavaScript s.substring(a, b) for 0 ≤ a ≤ b (the only uses in the code). -/
def jsSubstring (s : String) (a b : Nat) : String :=
  String.mk ((s.data.drop a).take (b - a))

/-- generateShortId from the subscription-id generator: the draw argument is
the string Math.random().toString(16) produced; s.slice(0, n) coincides with
s.substring(0, n) for the nonnegative in-range uses here. -/
def generateShortId (roleTag : String) (draw : String) : String :=
  let randomStr := jsSubstring draw 2 10
  if roleTag != "" then roleTag ++ jsSubstring randomStr 0 6
  else jsSubstring randomStr 0 8

/-- Lowercase hexadecimal digit. -/
def isLowerHexDigit (c : Char) : Bool :=
  c.isDigit || (('a' ≤ c) && (c ≤ 'f'))

/-- Shape of Number.prototype.toString(16) applied to a value of
Math.random(), i.e. a float in [0,1): the string "0" for zero, otherwise
"0." followed by a nonempty run of lowercase hexadecimal digits. -/
def jsRandomHexRepr (s : String) : Prop :=
  s = "0" ∨ ∃ t : String, s = "0." ++ t ∧ t ≠ "" ∧ ∀ c ∈ t.data, isLowerHexDigit c = true

/-! ## Publish tracker (publishEvent in src/lib/nostr.ts) -/

/-- Final settlement of the publish promise. -/
inductive PublishOutcome where
  | resolved (id : String)
  | timedOut
deriving DecidableEq

/-- State of one publishEvent call: whether its message listener is still
attached to the transport, and the settlement of its promise (none while the
promise is pending). -/
structure PubState where
  listenerAttached : Bool
  outcome : Option PublishOutcome
deriving DecidableEq

/-- An inbound relay frame as publishEvent reads it: data[0] (the tag) and
data[1] (the carried id), with the arrival time in milliseconds after the
call started. -/
structure TimedFrame where
  time : Nat
  tag : String
  arg1 : String
deriving DecidableEq

/-- Publish acknowledgment deadline (the 10000 ms setTimeout). -/
def PUBLISH_TIMEOUT_MS : Nat := 10000

/-- The acknowledgment test of publishEvent's messageHandler:
data[0] === "OK" && data[1] === event.id. -/
def okMatches (eventId : Option String) (f : TimedFrame) : Bool :=
  f.tag == "OK" && some f.arg1 == eventId

/-- Effect of one inbound frame on the publish state: while the listener is
attached, a matching OK clears the timeout, removes the listener and resolves
the promise (a no-op if the promise already settled, as after a late
acknowledgment that follows the timeout); everything else is ignored. -/
def pubStep (eventId : Option String) (s : PubState) (f : TimedFrame) : PubState :=
  if s.listenerAttached && okMatches eventId f then
    { listenerAttached := false
      outcome := some (s.outcome.getD (PublishOutcome.resolved f.arg1)) }
  else s

/-- Publish state after the frames arriving before the 10-second deadline
have been handled, starting from the freshly attached pending state. -/
def publishEarly (eventId : Option String) (frames : List TimedFrame) : PubState :=
  (frames.filter (fun f => f.time < PUBLISH_TIMEOUT_MS)).foldl (pubStep eventId)
    { listenerAttached := true, outcome := none }

/-- Effect of the setTimeout handler firing at the deadline: it rejects a
still-pending promise with the publish-timeout error and does not touch the
listener; a settled promise is unaffected. -/
def publishAfterTimeout (s : PubState) : PubState :=
  if s.outcome.isSome then s else { s with outcome := some PublishOutcome.timedOut }

/-- Whole-call model of publishEvent: the listener is attached, frames are
given in arrival order, frames before the 10-second deadline are handled with
the promise pending, then the timeout fires, then any later frames are
handled by the still-attached handler. -/
def publishRun (eventId : Option String) (frames : List TimedFrame) : PubState :=
  (frames.filter (fun f => !(f.time < PUBLISH_TIMEOUT_MS : Bool))).foldl (pubStep eventId)
    (publishAfterTimeout (publishEarly eventId frames))

/-! ## Connection manager (connectToRelay in src/lib/nostr.ts) -/

/-- WebSocket readyState values. -/
inductive ReadyState where
  | CONNECTING
  | OPEN
  | CLOSING
  | CLOSED
deriving DecidableEq

/-- A transport object. JavaScript object identity is modelled by the sid
field, drawn from the fresh-name supply of the module state. -/
structure Socket where
  sid : Nat
  readyState : ReadyState
deriving DecidableEq

/-- Module-level mutable state of src/lib/nostr.ts: the socket and
connectionPromise variables, plus a fresh-name supply for the identities of
newly created promises and sockets. -/
structure RelayConn where
  socket : Option Socket
  connectionPromise : Option Nat
  nextId : Nat
deriving DecidableEq

/-- Body of the new-Promise branch of connectToRelay: its executor runs
synchronously, closing and nulling a non-open existing socket, reusing an
already-open one (resolving with it), and otherwise creating a fresh
WebSocket in CONNECTING state. Returns the new state and the promise id. -/
def connectToRelayFresh (st : RelayConn) : RelayConn × Nat :=
  let pid := st.nextId
  let st1 : RelayConn :=
    match st.socket with
    | some s => if s.readyState != ReadyState.OPEN then { st with socket := none } else st
    | none => st
  match st1.socket with
  | some _ => ({ st1 with connectionPromise := some pid, nextId := st.nextId + 1 }, pid)
  | none =>
    ({ st1 with
        socket := some { sid := st.nextId + 1, readyState := ReadyState.CONNECTING }
        connectionPromise := some pid
        nextId := st.nextId + 2 }, pid)

/-- connectToRelay: if a connection promise exists and the socket is
CONNECTING or OPEN, the existing promise is returned and nothing changes;
otherwise a new promise is created. -/
def connectToRelay (st : RelayConn) : RelayConn × Nat :=
  match st.connectionPromise, st.socket with
  | some p, some s =>
    if s.readyState == ReadyState.CONNECTING || s.readyState == ReadyState.OPEN
    then (st, p)
    else connectToRelayFresh st
  | _, _ => connectToRelayFresh st

/-- The socket.onclose handler installed by connectToRelay: it clears both
the socket and the connectionPromise module variables. -/
def relayCloseHandler (st : RelayConn) : RelayConn :=
  { st with socket := none, connectionPromise := none }

/-! ## Subscription router (subscribeToEvents in src/lib/nostr.ts) -/

/-- Outbound frames the unsubscribe closure can send. -/
inductive OutFrame where
  | closeFrame (subId : String)
deriving DecidableEq

/-- Transport state as seen by a subscription: its readyState and the set of
attached message listeners (identified by number; DOM listener lists are
sets, the same handler is never attached twice). -/
structure WsState where
  readyState : ReadyState
  listeners : Finset Nat
deriving DecidableEq

/-- The cleanup closure returned by subscribeToEvents: send a CLOSE frame for
the subscription id only if the transport is currently OPEN, then remove the
local message listener unconditionally. It is a total function: no path
throws. Returns the new transport state and the frames sent. -/
def unsubscribe (subId : String) (hid : Nat) (ws : WsState) : WsState × List OutFrame :=
  let sent := if ws.readyState = ReadyState.OPEN then [OutFrame.closeFrame subId] else []
  ({ ws with listeners := ws.listeners.erase hid }, sent)

/-- The per-subscription messageHandler invokes onEvent exactly for frames
with data[0] === "EVENT" and data[1] === subId. -/
def subMessageHandlerFires (subId : String) (tag arg1 : String) : Bool :=
  tag == "EVENT" && arg1 == subId

/-- Whether delivering a frame to the transport invokes this subscription's
onEvent callback: the handler must still be attached and the frame must match.
-/
def dispatchInvokesOnEvent (hid : Nat) (ws : WsState) (subId : String) (tag arg1 : String) : Bool :=
  decide (hid ∈ ws.listeners) && subMessageHandlerFires subId tag arg1

/-! ## Profile cache (fetchUserProfile / batchFetchUserProfiles) -/

/-- Profile metadata object. The cache subsystem treats the parsed JSON
opaquely; we represent the object by the content string it was parsed from,
with none standing for the empty object (the value given to empty profiles;
the JSON.parse-failure fallback to the empty object is not modelled because
no property proved here inspects the parsed shape). -/
abbrev NostrUserMetadata := Option String

/-- parseProfileContent: JSON.parse of the event content (see
NostrUserMetadata for the representation). -/
def parseProfileContent (content : String) : NostrUserMetadata :=
  some content

/-- UserProfile record of the profile-cache module. Fields the code leaves
unset on empty profiles (createdAt, raw) are Option-typed. -/
structure UserProfile where
  pubkey : String
  metadata : NostrUserMetadata
  loaded : Bool
  createdAt : Option Nat
  raw : Option String
deriving DecidableEq

/-- The minimal profile written for a key the relay gave no answer for;
loaded is true on the end-of-stored-events path and false on the timeout and
error paths. -/
def emptyProfile (pk : String) (loadedFlag : Bool) : UserProfile :=
  { pubkey := pk, metadata := none, loaded := loadedFlag, createdAt := none, raw := none }

/-- The profile built from a received kind-0 event. -/
def mkProfile (pk content : String) (createdAt : Nat) : UserProfile :=
  { pubkey := pk
    metadata := parseProfileContent content
    loaded := true
    createdAt := some createdAt
    raw := some content }

/-- One PROFILE_CACHE entry: the profile and the write timestamp. -/
structure CacheEntry where
  profile : UserProfile
  timestamp : Nat
deriving DecidableEq

/-- Association-list model of a JavaScript Map observed only through get and
set: set prepends, get takes the most recent binding. -/
def getK {α : Type} (m : List (String × α)) (k : String) : Option α :=
  (m.find? (fun p => p.1 == k)).map (fun p => p.2)

/-- Map.set modelled by shadowing: observationally equal to in-place update
for a map read only through getK. -/
def setK {α : Type} (m : List (String × α)) (k : String) (v : α) : List (String × α) :=
  (k, v) :: m

/-- The module-level PROFILE_CACHE map. -/
abbrev ProfileCache := List (String × CacheEntry)

/-- Cache time-to-live: 1000 * 60 * 60 * 24 milliseconds. -/
def PROFILE_CACHE_TIME : Nat := 1000 * 60 * 60 * 24

/-- Batch size for multi-key queries. -/
def BATCH_SIZE : Nat := 10

/-- Nostr kind of profile metadata events (NOSTR_KINDS.SET_METADATA). -/
def SET_METADATA : Nat := 0

/-- What the head of fetchUserProfile decides before any network activity:
serve the cached profile when the entry is younger than the TTL, otherwise
open a new WebSocket to the relay and subscribe (the network path). This is
the complete decision logic: the function keeps no record of an in-flight
fetch, so the decision depends only on the cache contents. -/
inductive FetchPath where
  | cached (p : UserProfile)
  | network
deriving DecidableEq

/-- The cache check at the top of fetchUserProfile (nonnegative clock
differences; a stale entry falls through to the network path). -/
def fetchDecision (cache : ProfileCache) (pk : String) (now : Nat) : FetchPath :=
  match getK cache pk with
  | some c =>
    if now - c.timestamp < PROFILE_CACHE_TIME then FetchPath.cached c.profile
    else FetchPath.network
  | none => FetchPath.network

/-- Settlement of a promise: the reject channel exists in the promise
semantics even when the code never uses it. -/
inductive Settled (α : Type) where
  | resolvedWith (a : α)
  | rejected
deriving DecidableEq

/-- Inbound occurrences on the single-profile WebSocket, in arrival order. -/
inductive SingleMsg where
  | ev (pk : String) (kind : Nat) (content : String) (createdAt : Nat)
  | eose
  | notice (text : String)
deriving DecidableEq

/-- How the single-profile fetch ends when no message settled it: the
10-second timeout fires, or the socket errors. -/
inductive SingleEnd where
  | timeout
  | sockError
deriving DecidableEq

/-- Effect of one inbound message on the single-profile fetch: a kind-0 event
from the requested pubkey resolves with the parsed profile and caches it; an
end-of-stored-events marker resolves with an empty loaded profile and caches
it; notices and foreign events are ignored; nothing happens after settlement
(the socket was closed). -/
def singleStep (pk : String) (now : Nat)
    (st : Option (Settled UserProfile) × ProfileCache) (m : SingleMsg) :
    Option (Settled UserProfile) × ProfileCache :=
  match st.1 with
  | some _ => st
  | none =>
    match m with
    | SingleMsg.ev epk kind content createdAt =>
      if epk == pk && kind == SET_METADATA then
        let profile := mkProfile pk content createdAt
        (some (Settled.resolvedWith profile), setK st.2 pk { profile := profile, timestamp := now })
      else st
    | SingleMsg.eose =>
      let p := emptyProfile pk true
      (some (Settled.resolvedWith p), setK st.2 pk { profile := p, timestamp := now })
    | SingleMsg.notice _ => st

/-- Whole-call model of fetchUserProfile: cache check first; on the network
path the inbound messages are handled in order, and if none settled the
promise, the timeout handler or the error handler resolves with an empty
unloaded profile and caches it (neither handler rejects). -/
def fetchUserProfileRun (cache : ProfileCache) (pk : String) (now : Nat)
    (msgs : List SingleMsg) (ending : SingleEnd) : Settled UserProfile × ProfileCache :=
  match fetchDecision cache pk now with
  | FetchPath.cached p => (Settled.resolvedWith p, cache)
  | FetchPath.network =>
    let r := msgs.foldl (singleStep pk now) (none, cache)
    match r.1 with
    | some s => (s, r.2)
    | none =>
      match ending with
      | SingleEnd.timeout =>
        let p := emptyProfile pk false
        (Settled.resolvedWith p, setK r.2 pk { profile := p, timestamp := now })
      | SingleEnd.sockError =>
        let p := emptyProfile pk false
        (Settled.resolvedWith p, setK r.2 pk { profile := p, timestamp := now })

/-- Number of relay queries one fetchUserProfile call issues given the cache
it reads. -/
def queryCountOf (d : FetchPath) : Nat :=
  match d with
  | FetchPath.network => 1
  | FetchPath.cached _ => 0

/-- Two callers invoke fetchUserProfile for the same key in the same
event-loop turn, before either fetch completes. Execution is single-threaded
and every cache write of the function sits in a later asynchronous handler,
so both calls run the cache check against the same cache contents; the
function keeps no in-flight marker that could make the second call observe
the first. -/
def concurrentQueryCount (cache : ProfileCache) (k : String) (now : Nat) : Nat :=
  queryCountOf (fetchDecision cache k now) + queryCountOf (fetchDecision cache k now)

/-! ## Batch fetch (batchFetchUserProfiles) -/

/-- Inbound occurrences on one batch WebSocket, in arrival order. -/
inductive BatchMsg where
  | eventMsg (pk : String) (kind : Nat) (content : String) (createdAt : Nat)
  | eose
  | notice (text : String)
deriving DecidableEq

/-- How the batch ends when the messages neither completed the key set nor
contained an end-of-stored-events marker: the 10-second batch timeout fires,
or the socket errors. -/
inductive BatchEnd where
  | timeout
  | sockError
deriving DecidableEq

/-- State of one batch promise: the result map being built, the module cache,
the set of pubkeys already received (a JavaScript Set, kept without
duplicates), and whether the promise already resolved (after which the socket
is closed and nothing further happens). -/
structure BatchState where
  result : List (String × UserProfile)
  cache : ProfileCache
  received : List String
  resolvedEarly : Bool
deriving DecidableEq

/-- Set.add on the received-profiles set. -/
def insertNew (l : List String) (k : String) : List String :=
  if l.contains k then l else k :: l

/-- One step of the fill loop run by the timeout, error and
end-of-stored-events handlers: keys already received keep their entries,
every other batch key gets an explicit empty profile written to both the
result map and the cache (timestamped with the batch start time). -/
def fillStep (loadedFlag : Bool) (now : Nat) (s : BatchState) (pk : String) : BatchState :=
  if s.received.contains pk then s
  else
    let p := emptyProfile pk loadedFlag
    { s with
        result := setK s.result pk p
        cache := setK s.cache pk { profile := p, timestamp := now } }

/-- The batchPubkeys.forEach fill loop. -/
def fillMissing (loadedFlag : Bool) (batch : List String) (now : Nat) (s : BatchState) : BatchState :=
  batch.foldl (fillStep loadedFlag now) s

/-- Handling of a kind-0 event from a requested pubkey: the parsed profile is
written to the result map and the cache and the pubkey marked received; the
promise resolves early once the received set reaches the size of the batch
key set. -/
def batchReceive (batch : List String) (now : Nat) (s : BatchState)
    (pk content : String) (createdAt : Nat) : BatchState :=
  if (insertNew s.received pk).length == batch.length then
    { s with
        result := setK s.result pk (mkProfile pk content createdAt)
        cache := setK s.cache pk { profile := mkProfile pk content createdAt, timestamp := now }
        received := insertNew s.received pk
        resolvedEarly := true }
  else
    { s with
        result := setK s.result pk (mkProfile pk content createdAt)
        cache := setK s.cache pk { profile := mkProfile pk content createdAt, timestamp := now }
        received := insertNew s.received pk }

/-- Effect of one inbound message while the batch promise is still pending: a
kind-0 event from a requested pubkey is recorded (see batchReceive); an
end-of-stored-events marker writes empty loaded profiles for the keys still
missing and resolves; notices and foreign events are ignored. -/
def batchStepActive (batch : List String) (now : Nat) (s : BatchState) :
    BatchMsg → BatchState
  | BatchMsg.eventMsg pk kind content createdAt =>
    if kind == SET_METADATA && batch.contains pk then
      batchReceive batch now s pk content createdAt
    else s
  | BatchMsg.eose => { fillMissing true batch now s with resolvedEarly := true }
  | BatchMsg.notice _ => s

/-- Effect of one inbound message on the batch: nothing happens once the
promise resolved (the socket was closed), otherwise the message is handled by
batchStepActive. -/
def batchStep (batch : List String) (now : Nat) (s : BatchState) (m : BatchMsg) : BatchState :=
  if s.resolvedEarly then s else batchStepActive batch now s m

/-- End-of-run handling of one batch: when the messages already resolved the
promise nothing happens; otherwise the batch timeout handler or the error
handler writes empty unloaded profiles for the keys still missing and
resolves. -/
def batchFinish (batch : List String) (now : Nat) (ending : BatchEnd)
    (s1 : BatchState) : BatchState :=
  if s1.resolvedEarly then s1
  else
    match ending with
    | BatchEnd.timeout => { fillMissing false batch now s1 with resolvedEarly := true }
    | BatchEnd.sockError => { fillMissing false batch now s1 with resolvedEarly := true }

/-- Whole run of one batch of batchFetchUserProfiles: messages are handled in
arrival order starting from the module cache and an empty received set, then
the run is finished by early resolution, the timeout or the error handler. -/
def batchRun (batch : List String) (now : Nat) (cache : ProfileCache)
    (msgs : List BatchMsg) (ending : BatchEnd) : BatchState :=
  batchFinish batch now ending
    (msgs.foldl (batchStep batch now)
      { result := [], cache := cache, received := [], resolvedEarly := false })

/-! ## Theorems: parser, id generator, subscription teardown, connection -/

/-- C10: for every non-empty role tag and every value of the random draw,
generateShortId returns the tag followed by at most six lowercase hexadecimal
characters, and ids generated with distinct single-character role tags are
never equal, whatever the draws were. -/
theorem generateShortId_role_separation (tg draw : String)
    (htg : tg ≠ "") (hdraw : jsRandomHexRepr draw) :
    (∃ t : String, generateShortId tg draw = tg ++ t ∧ t.length ≤ 6 ∧
        ∀ c ∈ t.data, isLowerHexDigit c = true)
    ∧ ∀ (c1 c2 : Char) (d1 d2 : String), c1 ≠ c2 →
        generateShortId (String.mk [c1]) d1 ≠ generateShortId (String.mk [c2]) d2 := by
  constructor
  · refine ⟨jsSubstring (jsSubstring draw 2 10) 0 6, ?_, ?_, ?_⟩
    · unfold generateShortId
      have : (tg != "") = true := bne_iff_ne.mpr htg
      simp [this]
    · show (((draw.data.drop 2).take 8).take 6).length ≤ 6
      exact List.length_take_le 6 _
    · intro c hc
      have hc' : c ∈ (draw.data.drop 2).take 8 := List.take_subset 6 _ hc
      have hc2 : c ∈ draw.data.drop 2 := List.take_subset 8 _ hc'
      rcases hdraw with h0 | ⟨u, hu, _, hhex⟩
      · rw [h0] at hc2
        simp at hc2
      · rw [hu] at hc2
        have : ("0." ++ u).data = '0' :: '.' :: u.data := by
          rw [String.data_append]; rfl
        rw [this] at hc2
        exact hhex c hc2
  · intro c1 c2 d1 d2 hne heq
    have h1 : (String.mk [c1] != "") = true := by
      refine bne_iff_ne.mpr ?_
      intro h
      have := String.ext_iff.mp h
      simp at this
    have h2 : (String.mk [c2] != "") = true := by
      refine bne_iff_ne.mpr ?_
      intro h
      have := String.ext_iff.mp h
      simp at this
    unfold generateShortId at heq
    rw [h1, h2] at heq
    simp only [if_true] at heq
    have := String.ext_iff.mp heq
    rw [String.data_append, String.data_append] at this
    exact hne (List.head_eq_of_cons_eq this)

/-- Witness for C10 at the role tag "p" and the draw 0.1a2b3c4d5e (hex). -/
theorem generateShortId_role_separation_witness :
    ∃ t : String, generateShortId "p" "0.1a2b3c4d5e" = "p" ++ t ∧ t.length ≤ 6 ∧
        ∀ c ∈ t.data, isLowerHexDigit c = true :=
  (generateShortId_role_separation "p" "0.1a2b3c4d5e" (by decide)
    (Or.inr ⟨"1a2b3c4d5e", by decide, by decide, by decide⟩)).1

/-- C7: the unsubscribe closure is idempotent and total: a second call leaves
the transport state exactly as the first call left it and sends the same
frames, after the first call the subscription's onEvent callback can never be
invoked again, and the CLOSE frame is sent exactly when the transport is
currently open (so a call after the transport closed sends nothing and still
removes the listener; no path throws, the model being a total function). -/
theorem unsubscribe_idempotent_and_silences (subId : String) (hid : Nat) (ws : WsState) :
    (unsubscribe subId hid (unsubscribe subId hid ws).1).1 = (unsubscribe subId hid ws).1
    ∧ (∀ tag arg1, dispatchInvokesOnEvent hid (unsubscribe subId hid ws).1 subId tag arg1 = false)
    ∧ (unsubscribe subId hid (unsubscribe subId hid ws).1).2 = (unsubscribe subId hid ws).2
    ∧ (unsubscribe subId hid ws).2
        = (if ws.readyState = ReadyState.OPEN then [OutFrame.closeFrame subId] else []) := by
  refine ⟨?_, ?_, ?_, rfl⟩
  · simp [unsubscribe, Finset.erase_idem]
  · intro tag arg1
    simp [unsubscribe, dispatchInvokesOnEvent, Finset.not_mem_erase]
  · simp [unsubscribe]

/-- C2: while a connection promise exists and its socket is still CONNECTING
or OPEN, connectToRelay returns that same promise and changes nothing (no
second transport is created); and after the close handler has cleared the
module handles, the next connectToRelay call creates a fresh CONNECTING
transport and a fresh promise, distinct from the old ones. The sid/pid bounds
express that the old socket and promise were created by this supply. -/
theorem connect_reuses_promise_and_refreshes (st : RelayConn) (p : Nat) (s : Socket)
    (hp : st.connectionPromise = some p) (hs : st.socket = some s)
    (hlive : s.readyState = ReadyState.CONNECTING ∨ s.readyState = ReadyState.OPEN)
    (hsid : s.sid < st.nextId) (hpid : p < st.nextId) :
    connectToRelay st = (st, p)
    ∧ ∃ s' : Socket,
        (connectToRelay (relayCloseHandler st)).1.socket = some s'
        ∧ s'.readyState = ReadyState.CONNECTING
        ∧ s'.sid ≠ s.sid
        ∧ (connectToRelay (relayCloseHandler st)).2 ≠ p := by
  constructor
  · unfold connectToRelay
    rw [hp, hs]
    rcases hlive with h | h <;> simp [h]
  · refine ⟨{ sid := st.nextId + 1, readyState := ReadyState.CONNECTING }, ?_, rfl, ?_, ?_⟩
    · simp [connectToRelay, relayCloseHandler, connectToRelayFresh]
    · simp only []
      omega
    · simp [connectToRelay, relayCloseHandler, connectToRelayFresh]
      omega

/-- Witness for C2 at a state holding an open socket 0 and promise 1. -/
theorem connect_reuses_promise_and_refreshes_witness :
    connectToRelay
        { socket := some { sid := 0, readyState := ReadyState.OPEN }
          connectionPromise := some 1, nextId := 2 }
      = ({ socket := some { sid := 0, readyState := ReadyState.OPEN }
           connectionPromise := some 1, nextId := 2 }, 1) :=
  (connect_reuses_promise_and_refreshes _ 1 { sid := 0, readyState := ReadyState.OPEN }
    rfl rfl (Or.inr rfl) (by decide) (by decide)).1

/-- C3 counterexample: for the uncached key "k", two fetchUserProfile calls
made before either fetch completes issue two relay queries, not one. -/
theorem fetchOne_concurrent_two_queries_cex :
    concurrentQueryCount [] "k" 0 = 2 ∧ concurrentQueryCount [] "k" 0 ≠ 1 := by
  decide

/-- C4 counterexample: an event with the full valid tag shape but a
non-numeric score value "abc" is parsed to a record whose similarity is NaN,
not to null. -/
theorem parse_nonnumeric_score_not_null_cex :
    parseEventToSimilarity
        { id := some "e1", pubkey := "pk", created_at := some 1, kind := 1729,
          tags := [["i", "isbn:111"], ["kind", "isbn"], ["i", "isbn:222"],
            ["kind", "isbn"], ["similarity", "abc"]],
          content := "c" } ≠ none
    ∧ (parseEventToSimilarity
        { id := some "e1", pubkey := "pk", created_at := some 1, kind := 1729,
          tags := [["i", "isbn:111"], ["kind", "isbn"], ["i", "isbn:222"],
            ["kind", "isbn"], ["similarity", "abc"]],
          content := "c" }).map (fun r => r.similarity) = some none := by
  decide

/-- C6 counterexample: a publish of event id "abc" that only ever observes an
OK frame for a different id settles by timeout with its message listener
still attached to the transport: the timeout settlement path does not remove
the listener. -/
theorem publish_timeout_listener_leak_cex :
    publishRun (some "abc") [{ time := 100, tag := "OK", arg1 := "other" }]
      = { listenerAttached := true, outcome := some PublishOutcome.timedOut } := by
  decide

/-- C8 counterexample: when the transport errors during an uncached
fetchUserProfile, the returned promise resolves with a substitute empty
profile; it does not reject with the transport error. -/
theorem fetch_transport_error_resolves_cex :
    (fetchUserProfileRun [] "k" 0 [] SingleEnd.sockError).1
        = Settled.resolvedWith (emptyProfile "k" false)
    ∧ (fetchUserProfileRun [] "k" 0 [] SingleEnd.sockError).1 ≠ Settled.rejected := by
  decide

/-! ## Publish tracker lemmas -/

/-- Once the publish listener is removed, inbound frames change nothing. -/
theorem foldl_pubStep_detached (eid : Option String) (l : List TimedFrame) (s : PubState)
    (h : s.listenerAttached = false) : l.foldl (pubStep eid) s = s := by
  induction l with
  | nil => rfl
  | cons f l ih =>
    have hstep : pubStep eid s f = s := by simp [pubStep, h]
    rw [List.foldl_cons, hstep, ih]

/-- A settled publish promise stays settled with the same outcome. -/
theorem foldl_pubStep_outcome_stable (eid : Option String) (l : List TimedFrame)
    (s : PubState) (o : PublishOutcome) (h : s.outcome = some o) :
    (l.foldl (pubStep eid) s).outcome = some o := by
  induction l generalizing s with
  | nil => exact h
  | cons f l ih =>
    rw [List.foldl_cons]
    apply ih
    by_cases hc : (s.listenerAttached && okMatches eid f) = true
    · simp [pubStep, hc, h]
    · simp [pubStep, hc, h]

/-- Frames that never acknowledge this event id leave the publish state
untouched. -/
theorem foldl_pubStep_no_match (eid : Option String) (l : List TimedFrame) (s : PubState)
    (h : ∀ f ∈ l, okMatches eid f = false) : l.foldl (pubStep eid) s = s := by
  induction l with
  | nil => rfl
  | cons f l ih =>
    rw [List.foldl_cons]
    have hf : okMatches eid f = false := h f (List.mem_cons_self f l)
    have hstep : pubStep eid s f = s := by simp [pubStep, hf]
    rw [hstep]
    exact ih (fun g hg => h g (List.mem_cons_of_mem f hg))

/-- From the pending attached state, a frame list containing an
acknowledgment of this id resolves the promise with that id and removes the
listener. -/
theorem foldl_pubStep_match_resolves (X : String) (l : List TimedFrame)
    (hm : ∃ f ∈ l, okMatches (some X) f = true) :
    l.foldl (pubStep (some X)) { listenerAttached := true, outcome := none }
      = { listenerAttached := false, outcome := some (PublishOutcome.resolved X) } := by
  induction l with
  | nil =>
    rcases hm with ⟨f, hf, _⟩
    cases hf
  | cons f l ih =>
    rw [List.foldl_cons]
    by_cases hf : okMatches (some X) f = true
    · have harg : f.arg1 = X := by
        have h2 := (Bool.and_eq_true _ _).mp hf |>.2
        simpa using h2
      have hstep : pubStep (some X) { listenerAttached := true, outcome := none } f
          = { listenerAttached := false, outcome := some (PublishOutcome.resolved X) } := by
        simp [pubStep, hf, harg]
      rw [hstep]
      exact foldl_pubStep_detached _ _ _ rfl
    · have hstep : pubStep (some X) { listenerAttached := true, outcome := none } f
          = { listenerAttached := true, outcome := none } := by
        simp [pubStep, hf]
      rw [hstep]
      apply ih
      rcases hm with ⟨g, hg, hgm⟩
      rcases List.mem_cons.mp hg with hgf | hgl
      · exact absurd (hgf ▸ hgm) (by simpa using hf)
      · exact ⟨g, hgl, hgm⟩

/-- While the listener is attached, it ends up removed exactly when some
frame of the list acknowledges this event id. -/
theorem foldl_pubStep_attached_iff (eid : Option String) (l : List TimedFrame) (s : PubState)
    (h : s.listenerAttached = true) :
    ((l.foldl (pubStep eid) s).listenerAttached = false)
      ↔ ∃ f ∈ l, okMatches eid f = true := by
  induction l generalizing s with
  | nil => simp [h]
  | cons f l ih =>
    rw [List.foldl_cons]
    by_cases hf : okMatches eid f = true
    · have hstep : (pubStep eid s f).listenerAttached = false := by
        simp [pubStep, h, hf]
      have hfix := foldl_pubStep_detached eid l _ hstep
      rw [hfix]
      exact iff_of_true hstep ⟨f, List.mem_cons_self f l, hf⟩
    · have hstep : pubStep eid s f = s := by simp [pubStep, hf]
      rw [hstep, ih s h]
      constructor
      · rintro ⟨g, hg, hgm⟩
        exact ⟨g, List.mem_cons_of_mem f hg, hgm⟩
      · rintro ⟨g, hg, hgm⟩
        rcases List.mem_cons.mp hg with hgf | hgl
        · exact absurd (hgf ▸ hgm) (by simpa using hf)
        · exact ⟨g, hgl, hgm⟩

/-- Every frame is in exactly one of the two time phases of publishRun. -/
theorem frame_phase_split (frames : List TimedFrame) (f : TimedFrame) :
    f ∈ frames
      ↔ f ∈ frames.filter (fun g => g.time < PUBLISH_TIMEOUT_MS)
        ∨ f ∈ frames.filter (fun g => !(g.time < PUBLISH_TIMEOUT_MS : Bool)) := by
  simp only [List.mem_filter]
  by_cases ht : f.time < PUBLISH_TIMEOUT_MS
  · simp [ht]
  · simp [ht]

/-- C1: a publish of event id X resolves with X whenever an OK frame carrying
X arrives within the 10-second deadline, and settles by timeout whenever no
OK frame carrying X arrives within the deadline, regardless of how many OK
frames for other ids arrive before it: acknowledgment matching is strictly by
event id, never by arrival order. -/
theorem publish_ack_matched_by_id (X : String) (frames : List TimedFrame) :
    ((∃ f ∈ frames, f.time < PUBLISH_TIMEOUT_MS ∧ okMatches (some X) f = true) →
        (publishRun (some X) frames).outcome = some (PublishOutcome.resolved X))
    ∧ ((∀ f ∈ frames, f.time < PUBLISH_TIMEOUT_MS → okMatches (some X) f = false) →
        (publishRun (some X) frames).outcome = some PublishOutcome.timedOut) := by
  constructor
  · intro hm
    rcases hm with ⟨f, hfmem, hft, hfok⟩
    have hfe : f ∈ frames.filter (fun g => g.time < PUBLISH_TIMEOUT_MS) := by
      rw [List.mem_filter]
      exact ⟨hfmem, by simpa using hft⟩
    unfold publishRun publishEarly
    rw [foldl_pubStep_match_resolves X _ ⟨f, hfe, hfok⟩]
    have hat : publishAfterTimeout ⟨false, some (PublishOutcome.resolved X)⟩
        = (⟨false, some (PublishOutcome.resolved X)⟩ : PubState) := rfl
    rw [hat]
    rw [foldl_pubStep_detached _ _ _ rfl]
  · intro hnone
    have hearly : ∀ f ∈ frames.filter (fun g => g.time < PUBLISH_TIMEOUT_MS),
        okMatches (some X) f = false := by
      intro f hf
      rw [List.mem_filter] at hf
      exact hnone f hf.1 (by simpa using hf.2)
    unfold publishRun publishEarly
    rw [foldl_pubStep_no_match _ _ _ hearly]
    have hat : publishAfterTimeout ⟨true, none⟩
        = (⟨true, some PublishOutcome.timedOut⟩ : PubState) := rfl
    rw [hat]
    exact foldl_pubStep_outcome_stable _ _ _ _ rfl

/-- Witness for C1: with event id abc, a run seeing OK frames for zzz then
abc resolves with abc, and a run seeing only the OK for zzz times out. -/
theorem publish_ack_matched_by_id_witness :
    (publishRun (some "abc")
        [{ time := 50, tag := "OK", arg1 := "zzz" }, { time := 60, tag := "OK", arg1 := "abc" }]).outcome
      = some (PublishOutcome.resolved "abc")
    ∧ (publishRun (some "abc") [{ time := 50, tag := "OK", arg1 := "zzz" }]).outcome
      = some PublishOutcome.timedOut :=
  ⟨(publish_ack_matched_by_id "abc" _).1
      ⟨{ time := 60, tag := "OK", arg1 := "abc" }, by decide, by decide, by decide⟩,
   (publish_ack_matched_by_id "abc" _).2 (by decide)⟩

/-- C6 amended: publishEvent attaches one message listener, and that listener
is removed exactly when some inbound frame acknowledges the event's id; in
particular a call that settles by timeout without ever observing a matching
OK frame leaves the listener attached (the timeout and transport-error paths
do not remove it). -/
theorem publish_listener_removed_iff_matching_ok (X : String) (frames : List TimedFrame) :
    (publishRun (some X) frames).listenerAttached = false
      ↔ ∃ f ∈ frames, okMatches (some X) f = true := by
  unfold publishRun publishEarly
  by_cases hE : ∃ f ∈ frames.filter (fun g => g.time < PUBLISH_TIMEOUT_MS),
      okMatches (some X) f = true
  · rw [foldl_pubStep_match_resolves X _ hE]
    have hat : publishAfterTimeout ⟨false, some (PublishOutcome.resolved X)⟩
        = (⟨false, some (PublishOutcome.resolved X)⟩ : PubState) := rfl
    rw [hat]
    rw [foldl_pubStep_detached _ _ _ rfl]
    refine iff_of_true rfl ?_
    rcases hE with ⟨f, hf, hfok⟩
    exact ⟨f, (List.mem_filter.mp hf).1, hfok⟩
  · have hearly : ∀ f ∈ frames.filter (fun g => g.time < PUBLISH_TIMEOUT_MS),
        okMatches (some X) f = false := by
      intro f hf
      rcases Bool.eq_false_or_eq_true (okMatches (some X) f) with h | h
      · exact absurd ⟨f, hf, h⟩ hE
      · exact h
    rw [foldl_pubStep_no_match _ _ _ hearly]
    have hat : publishAfterTimeout ⟨true, none⟩
        = (⟨true, some PublishOutcome.timedOut⟩ : PubState) := rfl
    rw [hat]
    rw [foldl_pubStep_attached_iff _ _ _ rfl]
    constructor
    · rintro ⟨f, hf, hfok⟩
      exact ⟨f, ((frame_phase_split frames f).mpr (Or.inr hf)), hfok⟩
    · rintro ⟨f, hf, hfok⟩
      rcases (frame_phase_split frames f).mp hf with he | hl
      · exact absurd ⟨f, he, hfok⟩ hE
      · exact ⟨f, hl, hfok⟩

/-! ## Parser theorems -/

/-- Inversion of a successful parse: the tag-shape conditions the source
checks all held and the record is exactly the one the success branch builds. -/
theorem parse_some_elim (e : NostrEvent) (r : SimilarityEvent)
    (h : parseEventToSimilarity e = some r) :
    ∃ st raw1 raw2,
      e.tags.find? (fun tag => tag.get? 0 == some "similarity") = some st
      ∧ (((e.tags.filter (fun tag => tag.get? 0 == some "i")).get? 0).bind
            (fun t => t.get? 1)) = some raw1
      ∧ (((e.tags.filter (fun tag => tag.get? 0 == some "i")).get? 1).bind
            (fun t => t.get? 1)) = some raw2
      ∧ (((e.tags.filter (fun tag => tag.get? 0 == some "i")).length != 2)
          || ((e.tags.filter (fun tag => tag.get? 0 == some "kind")).length != 2)) = false
      ∧ ((e.tags.filter (fun tag => tag.get? 0 == some "kind")).all
            (fun tag => tag.get? 1 == some "isbn")) = true
      ∧ r = { id := e.id.getD "", pubkey := e.pubkey, createdAt := e.created_at.getD 0,
              content := e.content,
              book1 := { isbn := jsReplaceFirst raw1 "isbn:" "",
                         title := "Book " ++ jsReplaceFirst raw1 "isbn:" "",
                         author := "Unknown Author" },
              book2 := { isbn := jsReplaceFirst raw2 "isbn:" "",
                         title := "Book " ++ jsReplaceFirst raw2 "isbn:" "",
                         author := "Unknown Author" },
              similarity := (st.get? 1).bind jsParseFloat } := by
  simp only [parseEventToSimilarity] at h
  cases hf : e.tags.find? (fun tag => tag.get? 0 == some "similarity") with
  | none =>
    rw [hf] at h
    simp at h
  | some st =>
    rw [hf] at h
    rcases Bool.eq_false_or_eq_true
        (((e.tags.filter (fun tag => tag.get? 0 == some "i")).length != 2)
          || ((e.tags.filter (fun tag => tag.get? 0 == some "kind")).length != 2))
      with hc | hc
    · rw [hc] at h
      simp at h
    · rw [hc] at h
      rcases Bool.eq_false_or_eq_true ((e.tags.filter (fun tag => tag.get? 0 == some "kind")).all
          (fun tag => tag.get? 1 == some "isbn")) with ha | ha
      · rw [ha] at h
        simp only [Bool.not_true] at h
        cases h1 : ((e.tags.filter (fun tag => tag.get? 0 == some "i")).get? 0).bind
            (fun t => t.get? 1) with
        | none =>
          rw [h1] at h
          simp at h
        | some raw1 =>
          cases h2 : ((e.tags.filter (fun tag => tag.get? 0 == some "i")).get? 1).bind
              (fun t => t.get? 1) with
          | none =>
            rw [h1, h2] at h
            simp at h
          | some raw2 =>
            rw [h1, h2] at h
            have hne1 : ¬(false = true) := by decide
            rw [if_neg hne1, if_neg hne1] at h
            simp only [Option.some.injEq] at h
            exact ⟨st, raw1, raw2, rfl, rfl, rfl, hc, ha, h.symm⟩
      · rw [ha] at h
        simp at h

/-- Constructor form of a successful parse: when the tag-shape conditions
hold, parseEventToSimilarity returns exactly the record the success branch
builds. -/
theorem parse_some_intro (e : NostrEvent) (st : List String) (raw1 raw2 : String)
    (hf : e.tags.find? (fun tag => tag.get? 0 == some "similarity") = some st)
    (h1 : (((e.tags.filter (fun tag => tag.get? 0 == some "i")).get? 0).bind
        (fun t => t.get? 1)) = some raw1)
    (h2 : (((e.tags.filter (fun tag => tag.get? 0 == some "i")).get? 1).bind
        (fun t => t.get? 1)) = some raw2)
    (hc : (((e.tags.filter (fun tag => tag.get? 0 == some "i")).length != 2)
        || ((e.tags.filter (fun tag => tag.get? 0 == some "kind")).length != 2)) = false)
    (ha : ((e.tags.filter (fun tag => tag.get? 0 == some "kind")).all
        (fun tag => tag.get? 1 == some "isbn")) = true) :
    parseEventToSimilarity e
      = some { id := e.id.getD "", pubkey := e.pubkey, createdAt := e.created_at.getD 0,
               content := e.content,
               book1 := { isbn := jsReplaceFirst raw1 "isbn:" "",
                          title := "Book " ++ jsReplaceFirst raw1 "isbn:" "",
                          author := "Unknown Author" },
               book2 := { isbn := jsReplaceFirst raw2 "isbn:" "",
                          title := "Book " ++ jsReplaceFirst raw2 "isbn:" "",
                          author := "Unknown Author" },
               similarity := (st.get? 1).bind jsParseFloat } := by
  simp only [parseEventToSimilarity]
  rw [hf]
  have hne1 : ¬(false = true) := by decide
  simp only [hc, ha, Bool.not_true, h1, h2]
  rw [if_neg hne1, if_neg hne1]

/-- C4 amended: parseEventToSimilarity returns null when the event has fewer
than two item tags, when the score tag is missing entirely, or when some
kind-tag value differs from the fixed discriminator isbn; but a non-numeric
score value does not yield null: the parse succeeds and the unparseable score
is propagated as NaN in the similarity field. -/
theorem parse_rejects_shape_and_propagates_nan (event : NostrEvent) :
    ((event.tags.filter (fun tag => tag.get? 0 == some "i")).length < 2 →
        parseEventToSimilarity event = none)
    ∧ (event.tags.find? (fun tag => tag.get? 0 == some "similarity") = none →
        parseEventToSimilarity event = none)
    ∧ ((∃ tag ∈ event.tags.filter (fun tag => tag.get? 0 == some "kind"),
          ¬ tag.get? 1 = some "isbn") →
        parseEventToSimilarity event = none)
    ∧ (∀ r, parseEventToSimilarity event = some r →
        r.similarity
          = (event.tags.find? (fun tag => tag.get? 0 == some "similarity")).bind
              (fun st => (st.get? 1).bind jsParseFloat)) := by
  refine ⟨?_, ?_, ?_, ?_⟩
  · intro hlt
    simp only [parseEventToSimilarity]
    cases hf : event.tags.find? (fun tag => tag.get? 0 == some "similarity") with
    | none => rfl
    | some st =>
      have h1 : (((event.tags.filter (fun tag => tag.get? 0 == some "i")).length != 2)
          || ((event.tags.filter (fun tag => tag.get? 0 == some "kind")).length != 2)) = true := by
        have hb : ((event.tags.filter (fun tag => tag.get? 0 == some "i")).length != 2) = true := by
          rw [bne_iff_ne]
          omega
        rw [hb, Bool.true_or]
      rw [h1]
      rfl
  · intro hfind
    simp only [parseEventToSimilarity, hfind]
  · rintro ⟨tag, htag, hne⟩
    simp only [parseEventToSimilarity]
    cases hf : event.tags.find? (fun tag => tag.get? 0 == some "similarity") with
    | none => rfl
    | some st =>
      have hall : ((event.tags.filter (fun tag => tag.get? 0 == some "kind")).all
          (fun tag => tag.get? 1 == some "isbn")) = false := by
        rcases Bool.eq_false_or_eq_true ((event.tags.filter
            (fun tag => tag.get? 0 == some "kind")).all (fun tag => tag.get? 1 == some "isbn"))
          with hb | hb
        · rw [List.all_eq_true] at hb
          exact absurd (by simpa using hb tag htag) hne
        · exact hb
      rcases Bool.eq_false_or_eq_true
          (((event.tags.filter (fun tag => tag.get? 0 == some "i")).length != 2)
            || ((event.tags.filter (fun tag => tag.get? 0 == some "kind")).length != 2))
        with hc | hc
      · rw [hc]
        rfl
      · rw [hc, hall]
        rfl
  · intro r hr
    obtain ⟨st, raw1, raw2, hf, h1, h2, hc, ha, hrec⟩ := parse_some_elim event r hr
    rw [hrec, hf]
    rfl

/-- Witness for C4 amended at an event with a single item tag. -/
theorem parse_rejects_shape_and_propagates_nan_witness :
    parseEventToSimilarity
        { id := none, pubkey := "pk", created_at := none, kind := 1729,
          tags := [["i", "isbn:1"]], content := "" } = none :=
  (parse_rejects_shape_and_propagates_nan _).1 (by decide)

/-- C9: when a raw event passes the tag-shape checks, the absence of the id
field or of the created_at field never causes rejection: the parse still
returns a record, with the empty string as id when the event id is absent and
0 as createdAt when created_at is absent. -/
theorem parse_missing_id_created_at_defaults (e : NostrEvent) :
    (∀ r, parseEventToSimilarity e = some r → e.id = none → r.id = "")
    ∧ (∀ r, parseEventToSimilarity e = some r → e.created_at = none → r.createdAt = 0)
    ∧ ((parseEventToSimilarity e).isSome = true →
        (parseEventToSimilarity { e with id := none, created_at := none }).isSome = true) := by
  refine ⟨?_, ?_, ?_⟩
  · intro r hr hid
    obtain ⟨st, raw1, raw2, hf, h1, h2, hc, ha, hrec⟩ := parse_some_elim e r hr
    rw [hrec, hid]
    rfl
  · intro r hr hca
    obtain ⟨st, raw1, raw2, hf, h1, h2, hc, ha, hrec⟩ := parse_some_elim e r hr
    rw [hrec, hca]
    rfl
  · intro hs
    cases hp : parseEventToSimilarity e with
    | none => rw [hp] at hs; cases hs
    | some r =>
      obtain ⟨st, raw1, raw2, hf, h1, h2, hc, ha, hrec⟩ := parse_some_elim e r hp
      have hmk := parse_some_intro { e with id := none, created_at := none } st raw1 raw2
        hf h1 h2 hc ha
      rw [hmk]
      rfl

/-- Witness for C9 at an event with valid tag shape and no id or created_at. -/
theorem parse_missing_id_created_at_defaults_witness :
    parseEventToSimilarity
        { id := none, pubkey := "pk", created_at := none, kind := 1729,
          tags := [["i", "isbn:111"], ["kind", "isbn"], ["i", "isbn:222"],
            ["kind", "isbn"], ["similarity", "1"]],
          content := "c" }
      = some { id := "", pubkey := "pk", createdAt := 0, content := "c",
               book1 := { isbn := "111", title := "Book 111", author := "Unknown Author" },
               book2 := { isbn := "222", title := "Book 222", author := "Unknown Author" },
               similarity := jsParseFloat "1" }
    ∧ ({ id := "", pubkey := "pk", createdAt := 0, content := "c",
         book1 := { isbn := "111", title := "Book 111", author := "Unknown Author" },
         book2 := { isbn := "222", title := "Book 222", author := "Unknown Author" },
         similarity := jsParseFloat "1" } : SimilarityEvent).id = "" :=
  ⟨rfl,
   (parse_missing_id_created_at_defaults
      { id := none, pubkey := "pk", created_at := none, kind := 1729,
        tags := [["i", "isbn:111"], ["kind", "isbn"], ["i", "isbn:222"],
          ["kind", "isbn"], ["similarity", "1"]],
        content := "c" }).1 _ rfl rfl⟩

/-! ## Cache theorems -/

/-- C3 amended: fetchUserProfile keeps no in-flight marker, so two calls for
the same uncached key made before either fetch completes both take the
network path and issue two relay queries; requests are deduplicated only
through the cache, once a completed fetch has written its entry: a second
call after completion and within the TTL is served from the cache with no
query. -/
theorem fetchOne_dedup_only_after_completion (cache : ProfileCache) (k : String) (now : Nat) :
    (getK cache k = none → concurrentQueryCount cache k now = 2)
    ∧ (∀ (p : UserProfile) (t t' : Nat), t' - t < PROFILE_CACHE_TIME →
        fetchDecision (setK cache k { profile := p, timestamp := t }) k t'
          = FetchPath.cached p) := by
  constructor
  · intro h
    simp [concurrentQueryCount, queryCountOf, fetchDecision, h]
  · intro p t t' htt
    simp [fetchDecision, getK, setK, htt]

/-- Witness for C3 amended: two queries on the empty cache, none after a
completed fetch wrote the key. -/
theorem fetchOne_dedup_only_after_completion_witness :
    concurrentQueryCount [] "k" 5 = 2
    ∧ fetchDecision (setK [] "k" { profile := emptyProfile "k" true, timestamp := 3 }) "k" 4
        = FetchPath.cached (emptyProfile "k" true) :=
  ⟨(fetchOne_dedup_only_after_completion [] "k" 5).1 rfl,
   (fetchOne_dedup_only_after_completion [] "k" 4).2 (emptyProfile "k" true) 3 4 (by decide)⟩

/-- No inbound message ever settles the single-profile fetch by rejection:
every settlement singleStep produces is a resolution. -/
theorem singleFold_not_rejected (pk : String) (now : Nat) (msgs : List SingleMsg)
    (st : Option (Settled UserProfile) × ProfileCache)
    (hst : ∀ s, st.1 = some s → s ≠ Settled.rejected) :
    ∀ s, (msgs.foldl (singleStep pk now) st).1 = some s → s ≠ Settled.rejected := by
  induction msgs generalizing st with
  | nil => exact hst
  | cons m msgs ih =>
    rw [List.foldl_cons]
    apply ih
    intro s hs
    cases hst1 : st.1 with
    | some s0 =>
      have hstep : singleStep pk now st m = st := by
        unfold singleStep
        rw [hst1]
      rw [hstep, hst1] at hs
      injection hs with h
      exact h ▸ hst s0 hst1
    | none =>
      cases m with
      | ev epk kind content createdAt =>
        by_cases hcond : (epk == pk && kind == SET_METADATA) = true
        · have hstep : (singleStep pk now st (SingleMsg.ev epk kind content createdAt)).1
              = some (Settled.resolvedWith (mkProfile pk content createdAt)) := by
            simp [singleStep, hst1, hcond]
          rw [hstep] at hs
          injection hs with h
          intro hc
          rw [← h] at hc
          cases hc
        · have hstep : singleStep pk now st (SingleMsg.ev epk kind content createdAt) = st := by
            simp [singleStep, hst1, hcond]
          rw [hstep, hst1] at hs
          cases hs
      | eose =>
        have hstep : (singleStep pk now st SingleMsg.eose).1
            = some (Settled.resolvedWith (emptyProfile pk true)) := by
          simp [singleStep, hst1]
        rw [hstep] at hs
        injection hs with h
        intro hc
        rw [← h] at hc
        cases hc
      | notice t =>
        have hstep : singleStep pk now st (SingleMsg.notice t) = st := by
          simp [singleStep, hst1]
        rw [hstep, hst1] at hs
        cases hs

/-- C8 amended: the cache layer swallows transport errors: an uncached
fetchUserProfile whose socket errors resolves with an empty unloaded profile
and caches it under the key, and no fetchUserProfile call ever rejects,
whatever messages arrive and however the fetch ends. -/
theorem fetch_transport_error_swallowed (cache : ProfileCache) (pk : String) (now : Nat)
    (h : getK cache pk = none) :
    fetchUserProfileRun cache pk now [] SingleEnd.sockError
      = (Settled.resolvedWith (emptyProfile pk false),
         setK cache pk { profile := emptyProfile pk false, timestamp := now })
    ∧ ∀ (msgs : List SingleMsg) (ending : SingleEnd),
        (fetchUserProfileRun cache pk now msgs ending).1 ≠ Settled.rejected := by
  constructor
  · simp [fetchUserProfileRun, fetchDecision, h]
  · intro msgs ending
    simp only [fetchUserProfileRun]
    cases hd : fetchDecision cache pk now with
    | cached p =>
      intro hfalse
      cases hfalse
    | network =>
      cases hr1 : (msgs.foldl (singleStep pk now) (none, cache)).1 with
      | some s =>
        exact singleFold_not_rejected pk now msgs (none, cache) (by intro s hs; cases hs) s hr1
      | none =>
        cases ending with
        | timeout =>
          intro hfalse
          cases hfalse
        | sockError =>
          intro hfalse
          cases hfalse

/-- Witness for C8 amended at the empty cache. -/
theorem fetch_transport_error_swallowed_witness :
    fetchUserProfileRun [] "k" 7 [] SingleEnd.sockError
      = (Settled.resolvedWith (emptyProfile "k" false),
         setK [] "k" { profile := emptyProfile "k" false, timestamp := 7 }) :=
  (fetch_transport_error_swallowed [] "k" 7 rfl).1

/-! ## Batch coverage lemmas -/

theorem getK_setK_self {α : Type} (m : List (String × α)) (k : String) (v : α) :
    getK (setK m k v) k = some v := by
  simp [getK, setK, List.find?]

theorem getK_setK_ne {α : Type} (m : List (String × α)) (k k' : String) (v : α)
    (h : k' ≠ k) : getK (setK m k v) k' = getK m k' := by
  have hb : (k == k') = false := by
    rw [beq_eq_false_iff_ne]
    exact fun he => h he.symm
  simp [getK, setK, List.find?, hb]

def entryAt (now : Nat) (c : ProfileCache) (k : String) : Prop :=
  ∃ e, getK c k = some e ∧ e.timestamp = now

def loadedEntryAt (now : Nat) (c : ProfileCache) (k : String) : Prop :=
  ∃ e, getK c k = some e ∧ e.timestamp = now
    ∧ e.profile.loaded = true ∧ e.profile.raw.isSome = true

def emptyEntryAt (now : Nat) (c : ProfileCache) (k : String) : Prop :=
  ∃ lf : Bool, getK c k = some { profile := emptyProfile k lf, timestamp := now }

theorem entryAt_of_loaded (now : Nat) (c : ProfileCache) (k : String)
    (h : loadedEntryAt now c k) : entryAt now c k := by
  rcases h with ⟨e, he, ht, _, _⟩
  exact ⟨e, he, ht⟩

theorem entryAt_setK (now : Nat) (c : ProfileCache) (k k' : String) (p : UserProfile)
    (h : entryAt now c k) :
    entryAt now (setK c k' { profile := p, timestamp := now }) k := by
  by_cases hk : k = k'
  · subst hk
    exact ⟨_, getK_setK_self c k _, rfl⟩
  · rcases h with ⟨e, he, ht⟩
    exact ⟨e, by rw [getK_setK_ne c k' k _ hk]; exact he, ht⟩

theorem fillStep_received (lf : Bool) (now : Nat) (s : BatchState) (pk : String) :
    (fillStep lf now s pk).received = s.received := by
  unfold fillStep
  split <;> rfl

theorem fillStep_resolved (lf : Bool) (now : Nat) (s : BatchState) (pk : String) :
    (fillStep lf now s pk).resolvedEarly = s.resolvedEarly := by
  unfold fillStep
  split <;> rfl

theorem fillMissing_cons (lf : Bool) (pk : String) (batch : List String) (now : Nat)
    (s : BatchState) :
    fillMissing lf (pk :: batch) now s = fillMissing lf batch now (fillStep lf now s pk) := rfl

theorem fillMissing_received (lf : Bool) (batch : List String) (now : Nat) (s : BatchState) :
    (fillMissing lf batch now s).received = s.received := by
  induction batch generalizing s with
  | nil => rfl
  | cons pk batch ih =>
    rw [fillMissing_cons, ih, fillStep_received]

theorem fillStep_preserves_entryAt (lf : Bool) (now : Nat) (s : BatchState) (pk k : String)
    (h : entryAt now s.cache k) : entryAt now (fillStep lf now s pk).cache k := by
  unfold fillStep
  split
  · exact h
  · exact entryAt_setK now s.cache k pk _ h

theorem fillMissing_preserves_entryAt (lf : Bool) (batch : List String) (now : Nat)
    (s : BatchState) (k : String) (h : entryAt now s.cache k) :
    entryAt now (fillMissing lf batch now s).cache k := by
  induction batch generalizing s with
  | nil => exact h
  | cons pk batch ih =>
    rw [fillMissing_cons]
    exact ih _ (fillStep_preserves_entryAt lf now s pk k h)

theorem fillStep_preserves_loadedEntryAt (lf : Bool) (now : Nat) (s : BatchState)
    (pk k : String) (hk : k ∈ s.received) (h : loadedEntryAt now s.cache k) :
    loadedEntryAt now (fillStep lf now s pk).cache k := by
  unfold fillStep
  split
  · exact h
  · next hcont =>
    have hne : k ≠ pk := by
      intro he
      subst he
      exact hcont (List.elem_iff.mpr hk)
    rcases h with ⟨e, he, ht, hl, hw⟩
    exact ⟨e, by rw [getK_setK_ne s.cache pk k _ hne]; exact he, ht, hl, hw⟩

theorem fillMissing_preserves_loadedEntryAt (lf : Bool) (batch : List String) (now : Nat)
    (s : BatchState) (k : String) (hk : k ∈ s.received) (h : loadedEntryAt now s.cache k) :
    loadedEntryAt now (fillMissing lf batch now s).cache k := by
  induction batch generalizing s with
  | nil => exact h
  | cons pk batch ih =>
    rw [fillMissing_cons]
    apply ih (fillStep lf now s pk)
    · rw [fillStep_received]
      exact hk
    · exact fillStep_preserves_loadedEntryAt lf now s pk k hk h

theorem fillStep_preserves_emptyEntryAt (lf : Bool) (now : Nat) (s : BatchState)
    (pk k : String) (h : emptyEntryAt now s.cache k) :
    emptyEntryAt now (fillStep lf now s pk).cache k := by
  unfold fillStep
  split
  · exact h
  · by_cases hk : k = pk
    · subst hk
      exact ⟨lf, getK_setK_self s.cache k _⟩
    · rcases h with ⟨l, hl⟩
      exact ⟨l, by rw [getK_setK_ne s.cache pk k _ hk]; exact hl⟩

theorem fillMissing_preserves_emptyEntryAt (lf : Bool) (batch : List String) (now : Nat)
    (s : BatchState) (k : String) (h : emptyEntryAt now s.cache k) :
    emptyEntryAt now (fillMissing lf batch now s).cache k := by
  induction batch generalizing s with
  | nil => exact h
  | cons pk batch ih =>
    rw [fillMissing_cons]
    exact ih _ (fillStep_preserves_emptyEntryAt lf now s pk k h)

theorem fillMissing_writes_empty (lf : Bool) (batch : List String) (now : Nat) :
    ∀ (s : BatchState) (k : String), k ∈ batch → s.received.contains k = false →
      emptyEntryAt now (fillMissing lf batch now s).cache k := by
  induction batch with
  | nil =>
    intro s k hk hnr
    cases hk
  | cons pk batch ih =>
    intro s k hk hnr
    rw [fillMissing_cons]
    rcases List.mem_cons.mp hk with hkpk | hkb
    · subst hkpk
      have hstep : emptyEntryAt now (fillStep lf now s k).cache k := by
        unfold fillStep
        rw [hnr]
        exact ⟨lf, getK_setK_self s.cache k _⟩
      exact fillMissing_preserves_emptyEntryAt lf batch now _ k hstep
    · apply ih (fillStep lf now s pk) k hkb
      rw [fillStep_received]
      exact hnr

theorem fillMissing_covers (lf : Bool) (batch : List String) (now : Nat) :
    ∀ (s : BatchState) (k : String), (∀ k' ∈ s.received, entryAt now s.cache k') →
      k ∈ batch → entryAt now (fillMissing lf batch now s).cache k := by
  induction batch with
  | nil =>
    intro s k hrec hk
    cases hk
  | cons pk batch ih =>
    intro s k hrec hk
    rw [fillMissing_cons]
    rcases List.mem_cons.mp hk with hkpk | hkb
    · subst hkpk
      have hstep : entryAt now (fillStep lf now s k).cache k := by
        unfold fillStep
        split
        · next hcont => exact hrec k (List.elem_iff.mp hcont)
        · exact ⟨_, getK_setK_self s.cache k _, rfl⟩
      exact fillMissing_preserves_entryAt lf batch now _ k hstep
    · apply ih (fillStep lf now s pk) k ?_ hkb
      intro k' hk'
      rw [fillStep_received] at hk'
      exact fillStep_preserves_entryAt lf now s pk k' (hrec k' hk')

theorem insertNew_nodup (l : List String) (k : String) (h : l.Nodup) :
    (insertNew l k).Nodup := by
  unfold insertNew
  split
  · exact h
  · next hc =>
    rw [List.nodup_cons]
    exact ⟨fun hm => hc (List.elem_iff.mpr hm), h⟩

theorem mem_insertNew (l : List String) (k x : String) :
    x ∈ insertNew l k ↔ x = k ∨ x ∈ l := by
  unfold insertNew
  split
  · next hc =>
    constructor
    · exact Or.inr
    · rintro (rfl | hx)
      · exact List.elem_iff.mp hc
      · exact hx
  · exact List.mem_cons

theorem batch_subset_received (batch rec : List String)
    (hrn : rec.Nodup) (hsub : ∀ x ∈ rec, x ∈ batch) (hlen : rec.length = batch.length) :
    ∀ x ∈ batch, x ∈ rec := by
  have hsp := List.subperm_of_subset hrn hsub
  have hperm := List.Subperm.perm_of_length_le hsp (by omega)
  intro x hx
  exact hperm.mem_iff.mpr hx

theorem loadedEntryAt_setK_mk (now : Nat) (c : ProfileCache) (k pk content : String)
    (createdAt : Nat) (h : loadedEntryAt now c k) :
    loadedEntryAt now (setK c pk { profile := mkProfile pk content createdAt, timestamp := now }) k := by
  by_cases hk : k = pk
  · subst hk
    exact ⟨_, getK_setK_self c k _, rfl, rfl, rfl⟩
  · rcases h with ⟨e, he, ht, hl, hw⟩
    exact ⟨e, by rw [getK_setK_ne c pk k _ hk]; exact he, ht, hl, hw⟩

/-- Invariant maintained through a batch run: the received set has no
duplicates, contains only batch keys, each received key has a fresh loaded
cache entry, and once the promise resolved every batch key has a fresh entry,
the non-received ones an explicit empty one. -/
def batchInv (batch : List String) (now : Nat) (s : BatchState) : Prop :=
  s.received.Nodup
  ∧ (∀ k ∈ s.received, k ∈ batch)
  ∧ (∀ k ∈ s.received, loadedEntryAt now s.cache k)
  ∧ (s.resolvedEarly = true → ∀ k ∈ batch, entryAt now s.cache k)
  ∧ (s.resolvedEarly = true → ∀ k ∈ batch, k ∉ s.received → emptyEntryAt now s.cache k)

theorem batchFill_inv (lf : Bool) (batch : List String) (now : Nat) (s : BatchState)
    (hnd : s.received.Nodup) (hsub : ∀ k ∈ s.received, k ∈ batch)
    (hload : ∀ k ∈ s.received, loadedEntryAt now s.cache k) :
    batchInv batch now { fillMissing lf batch now s with resolvedEarly := true } := by
  have hrecv : ({ fillMissing lf batch now s with resolvedEarly := true } : BatchState).received
      = s.received := fillMissing_received lf batch now s
  have hcache : ({ fillMissing lf batch now s with resolvedEarly := true } : BatchState).cache
      = (fillMissing lf batch now s).cache := rfl
  refine ⟨?_, ?_, ?_, ?_, ?_⟩
  · rw [hrecv]
    exact hnd
  · intro k hk
    rw [hrecv] at hk
    exact hsub k hk
  · intro k hk
    rw [hrecv] at hk
    rw [hcache]
    exact fillMissing_preserves_loadedEntryAt lf batch now s k hk (hload k hk)
  · intro _ k hk
    rw [hcache]
    exact fillMissing_covers lf batch now s k
      (fun k' hk' => entryAt_of_loaded now s.cache k' (hload k' hk')) hk
  · intro _ k hk hknr
    rw [hrecv] at hknr
    rw [hcache]
    apply fillMissing_writes_empty lf batch now s k hk
    rcases Bool.eq_false_or_eq_true (s.received.contains k) with hc | hc
    · exact absurd (List.elem_iff.mp hc) hknr
    · exact hc

theorem batchReceive_inv (batch : List String) (now : Nat) (s : BatchState)
    (pk content : String) (createdAt : Nat) (hpkb : pk ∈ batch)
    (hre : s.resolvedEarly = false)
    (hnd : s.received.Nodup) (hsub : ∀ k ∈ s.received, k ∈ batch)
    (hload : ∀ k ∈ s.received, loadedEntryAt now s.cache k) :
    batchInv batch now (batchReceive batch now s pk content createdAt) := by
  have h1nd : (insertNew s.received pk).Nodup := insertNew_nodup _ _ hnd
  have h1sub : ∀ k ∈ insertNew s.received pk, k ∈ batch := by
    intro k hk
    rcases (mem_insertNew _ _ _).mp hk with rfl | hk2
    · exact hpkb
    · exact hsub k hk2
  have h1load : ∀ k ∈ insertNew s.received pk,
      loadedEntryAt now
        (setK s.cache pk { profile := mkProfile pk content createdAt, timestamp := now }) k := by
    intro k hk
    by_cases hkpk : k = pk
    · subst hkpk
      exact ⟨_, getK_setK_self s.cache k _, rfl, rfl, rfl⟩
    · rcases (mem_insertNew _ _ _).mp hk with he | hk2
      · exact absurd he hkpk
      · exact loadedEntryAt_setK_mk now s.cache k pk content createdAt (hload k hk2)
  unfold batchReceive
  split
  · next hcnt =>
    have hlen : (insertNew s.received pk).length = batch.length := by
      simpa using hcnt
    have hall : ∀ x ∈ batch, x ∈ insertNew s.received pk :=
      batch_subset_received batch _ h1nd h1sub hlen
    refine ⟨h1nd, h1sub, h1load, ?_, ?_⟩
    · intro _ k hk
      exact entryAt_of_loaded _ _ _ (h1load k (hall k hk))
    · intro _ k hk hknr
      exact absurd (hall k hk) hknr
  · refine ⟨h1nd, h1sub, h1load, ?_, ?_⟩
    · intro h
      have h' : s.resolvedEarly = true := h
      rw [hre] at h'
      cases h'
    · intro h
      have h' : s.resolvedEarly = true := h
      rw [hre] at h'
      cases h'

theorem batchStep_inv (batch : List String) (now : Nat) (s : BatchState) (m : BatchMsg)
    (h : batchInv batch now s) : batchInv batch now (batchStep batch now s m) := by
  obtain ⟨hnd, hsub, hload, hres, hresE⟩ := h
  rcases Bool.eq_false_or_eq_true s.resolvedEarly with hre | hre
  · have hid : batchStep batch now s m = s := by
      unfold batchStep
      rw [hre]
      rfl
    rw [hid]
    exact ⟨hnd, hsub, hload, hres, hresE⟩
  · have hstep : batchStep batch now s m = batchStepActive batch now s m := by
      unfold batchStep
      rw [hre]
      rfl
    rw [hstep]
    cases m with
    | eventMsg pk kind content createdAt =>
      by_cases hcond : (kind == SET_METADATA && batch.contains pk) = true
      · have hact : batchStepActive batch now s (BatchMsg.eventMsg pk kind content createdAt)
            = batchReceive batch now s pk content createdAt := by
          show (if (kind == SET_METADATA && batch.contains pk) = true
              then batchReceive batch now s pk content createdAt else s)
            = batchReceive batch now s pk content createdAt
          rw [hcond]
          rfl
        rw [hact]
        exact batchReceive_inv batch now s pk content createdAt
          (List.elem_iff.mp ((Bool.and_eq_true _ _).mp hcond).2) hre hnd hsub hload
      · have hact : batchStepActive batch now s (BatchMsg.eventMsg pk kind content createdAt)
            = s := by
          show (if (kind == SET_METADATA && batch.contains pk) = true
              then batchReceive batch now s pk content createdAt else s) = s
          rw [if_neg hcond]
        rw [hact]
        exact ⟨hnd, hsub, hload, hres, hresE⟩
    | eose =>
      exact batchFill_inv true batch now s hnd hsub hload
    | notice t =>
      exact ⟨hnd, hsub, hload, hres, hresE⟩

theorem batchFold_inv (batch : List String) (now : Nat) (msgs : List BatchMsg) :
    ∀ s : BatchState, batchInv batch now s →
      batchInv batch now (msgs.foldl (batchStep batch now) s) := by
  induction msgs with
  | nil => exact fun s h => h
  | cons m msgs ih =>
    intro s h
    rw [List.foldl_cons]
    exact ih _ (batchStep_inv batch now s m h)

theorem batchFinish_inv (batch : List String) (now : Nat) (ending : BatchEnd)
    (s1 : BatchState) (h : batchInv batch now s1) :
    batchInv batch now (batchFinish batch now ending s1)
    ∧ (batchFinish batch now ending s1).resolvedEarly = true := by
  obtain ⟨hnd, hsub, hload, hres, hresE⟩ := h
  rcases Bool.eq_false_or_eq_true s1.resolvedEarly with hre | hre
  · have hid : batchFinish batch now ending s1 = s1 := by
      unfold batchFinish
      rw [hre]
      rfl
    rw [hid]
    exact ⟨⟨hnd, hsub, hload, hres, hresE⟩, hre⟩
  · have hfin : batchFinish batch now ending s1
        = { fillMissing false batch now s1 with resolvedEarly := true } := by
      unfold batchFinish
      rw [hre]
      cases ending <;> rfl
    rw [hfin]
    exact ⟨batchFill_inv false batch now s1 hnd hsub hload, rfl⟩

theorem fetchDecision_cached_of_fresh (c : ProfileCache) (k : String) (now t' : Nat)
    (e : CacheEntry) (he : getK c k = some e) (ht : e.timestamp = now)
    (htt : t' - now < PROFILE_CACHE_TIME) :
    fetchDecision c k t' = FetchPath.cached e.profile := by
  simp [fetchDecision, he, ht, htt]

/-- C5: after a batch fetch completes -- by early resolution, end-of-data,
the batch timeout or a socket error -- the cache holds a fresh entry for
every key of the batch: a loaded value entry for every answered key, an
explicit empty entry for every unanswered key; consequently a repeat
fetchUserProfile for any batch key within the TTL is served from the cache
and issues no new network query. -/
theorem batch_cache_coverage (batch : List String) (now : Nat) (cache : ProfileCache)
    (msgs : List BatchMsg) (ending : BatchEnd) :
    ∀ k ∈ batch,
      (∃ e, getK (batchRun batch now cache msgs ending).cache k = some e
          ∧ e.timestamp = now
          ∧ (∀ t', t' - now < PROFILE_CACHE_TIME →
              fetchDecision (batchRun batch now cache msgs ending).cache k t'
                = FetchPath.cached e.profile))
      ∧ (k ∉ (batchRun batch now cache msgs ending).received →
          ∃ lf : Bool, getK (batchRun batch now cache msgs ending).cache k
            = some { profile := emptyProfile k lf, timestamp := now })
      ∧ (k ∈ (batchRun batch now cache msgs ending).received →
          ∃ e, getK (batchRun batch now cache msgs ending).cache k = some e
            ∧ e.profile.loaded = true ∧ e.profile.raw.isSome = true) := by
  have h0 : batchInv batch now
      { result := [], cache := cache, received := [], resolvedEarly := false } := by
    refine ⟨List.nodup_nil, ?_, ?_, ?_, ?_⟩
    · intro k hk
      cases hk
    · intro k hk
      cases hk
    · intro h
      cases h
    · intro h
      cases h
  have h1 := batchFold_inv batch now msgs _ h0
  obtain ⟨⟨hnd, hsub, hload, hres, hresE⟩, hresolved⟩ :=
    batchFinish_inv batch now ending _ h1
  intro k hk
  refine ⟨?_, ?_, ?_⟩
  · obtain ⟨e, he, ht⟩ := hres hresolved k hk
    exact ⟨e, he, ht, fun t' htt => fetchDecision_cached_of_fresh _ _ now t' e he ht htt⟩
  · intro hknr
    exact hresE hresolved k hk hknr
  · intro hkr
    obtain ⟨e, he, ht, hl, hw⟩ := hload k hkr
    exact ⟨e, he, hl, hw⟩

/-- Witness for C5: batch A,B,C where the relay answers only B before the
timeout; the repeat lookup for A at time 100 is served from the cache. -/
theorem batch_cache_coverage_witness :
    getK (batchRun ["A", "B", "C"] 0 [] [BatchMsg.eventMsg "B" 0 "x" 5]
        BatchEnd.timeout).cache "A"
      = some { profile := emptyProfile "A" false, timestamp := 0 }
    ∧ fetchDecision (batchRun ["A", "B", "C"] 0 [] [BatchMsg.eventMsg "B" 0 "x" 5]
        BatchEnd.timeout).cache "A" 100
      = FetchPath.cached (emptyProfile "A" false) := by
  have hget : getK (batchRun ["A", "B", "C"] 0 [] [BatchMsg.eventMsg "B" 0 "x" 5]
      BatchEnd.timeout).cache "A"
      = some { profile := emptyProfile "A" false, timestamp := 0 } := by decide
  obtain ⟨e, he, ht, hf⟩ := (batch_cache_coverage ["A", "B", "C"] 0 []
      [BatchMsg.eventMsg "B" 0 "x" 5] BatchEnd.timeout "A" (by decide)).1
  have he' : e = { profile := emptyProfile "A" false, timestamp := 0 } := by
    rw [hget] at he
    injection he with h
    exact h.symm
  refine ⟨hget, ?_⟩
  have hd := hf 100 (by decide)
  rw [he'] at hd
  exact hd
